import Mathlib

set_option maxRecDepth 100000

/-!
Shallow embedding of the SimpleOS core: the page allocator, process table
and syscall dispatcher of src/os_project/src/kernel/kernel.c, and the flat
file system of src/os_project/src/fs/filesystem.c.

Modelling conventions: C arrays indexed by unsigned integers become
functions out of Nat, C structs become structures, unsigned machine
integers become Nat with explicit reduction modulo 2^32 where wrap-around
matters, signed C int results become Int, and C strings become String
(truncation to 31 bytes becomes String.take 31).  Every unbounded C while
loop becomes a fuel-indexed recursion returning Option, where none marks
fuel exhaustion; bounded C for loops get their exact iteration count as
fuel.  Text output (print_string, print_hex) is modelled as an event
trace appended to the state.
-/

namespace SimpleOS

/-- Pointwise array update, the meaning of the C assignment a[i] = v. -/
def upd {α : Type} (f : Nat → α) (i : Nat) (v : α) : Nat → α :=
  fun j => if j = i then v else f j

/-- 32-bit unsigned addition. -/
def uadd (a b : Nat) : Nat := (a + b) % 4294967296

/-- 32-bit unsigned subtraction with wrap-around. -/
def usub (a b : Nat) : Nat :=
  (a % 4294967296 + 4294967296 - b % 4294967296) % 4294967296

/-- Conversion of a 32-bit unsigned value to a signed C int. -/
def toInt32 (n : Nat) : Int :=
  if n % 4294967296 < 2147483648 then ((n % 4294967296 : Nat) : Int)
  else ((n % 4294967296 : Nat) : Int) - 4294967296

/-! ## Memory allocator (kernel.c) -/

def MEMORY_START : Nat := 1048576
def PAGE_SIZE : Nat := 4096
def MAX_PAGES : Nat := 1024

/-- Inner loop of allocate_page: scan bits j, j+1, ... of word w for the
first clear bit, with rem iterations remaining. -/
def findClearBit (w : Nat) : Nat → Nat → Option Nat
  | 0, _ => none
  | rem + 1, j => if w.testBit j then findClearBit w rem (j + 1) else some j

/-- Outer loop of allocate_page: scan words i, i+1, ... of the bitmap,
skipping words equal to 0xFFFFFFFF, with rem iterations remaining. -/
def allocLoop (bm : Nat → Nat) : Nat → Nat → Option (Nat × Nat)
  | 0, _ => none
  | rem + 1, i =>
    if bm i = 4294967295 then allocLoop bm rem (i + 1)
    else
      match findClearBit (bm i) 32 0 with
      | some j => some (i, j)
      | none => allocLoop bm rem (i + 1)

/-- allocate_page from kernel.c: first-fit scan over the bitmap; on
success sets the bit and returns the absolute page address, on
exhaustion returns 0 with the bitmap unchanged. -/
def allocate_page (bm : Nat → Nat) : (Nat → Nat) × Nat :=
  match allocLoop bm 32 0 with
  | some (i, j) => (upd bm i (bm i ||| (1 <<< j)), MEMORY_START + (i * 32 + j) * PAGE_SIZE)
  | none => (bm, 0)

/-- free_page from kernel.c: clears the bitmap bit computed from the page
address, with the 32-bit wrap of the address subtraction made explicit. -/
def free_page (bm : Nat → Nat) (page : Nat) : Nat → Nat :=
  let page_index := (page % 4294967296 + 4294967296 - MEMORY_START) % 4294967296 / PAGE_SIZE
  let bitmap_index := page_index / 32
  let bit_index := page_index % 32
  upd bm bitmap_index (bm bitmap_index &&& (4294967295 ^^^ (1 <<< bit_index)))

/-- init_memory from kernel.c: clear bitmap, then mark the first four
pages used (memory_bitmap[0] = 0x0000000F). -/
def init_memory : Nat → Nat := upd (fun _ => 0) 0 15

/-- Observation: the allocation bit of page k in the bitmap. -/
def pageBit (bm : Nat → Nat) (k : Nat) : Bool := (bm (k / 32)).testBit (k % 32)

/-! ## Process table (kernel.c) -/

structure Process where
  pid : Int
  state : Nat
  stack_ptr : Nat
  code_ptr : Nat
  name : String
deriving DecidableEq

structure KState where
  memory_bitmap : Nat → Nat
  next_pid : Int
  processes : Nat → Process
  current_process : Nat

def MAX_PROCESSES : Nat := 10
def PROCESS_STACK_SIZE : Nat := 4096

/-- Slot scan of create_process: first slot with pid equal to 0. -/
def findFreeSlot (procs : Nat → Process) : Nat → Nat → Option Nat
  | 0, _ => none
  | rem + 1, i => if (procs i).pid = 0 then some i else findFreeSlot procs rem (i + 1)

/-- create_process from kernel.c: take the first free slot, assign the
next pid, set state directly to 1, allocate one page for the stack, copy
at most 31 bytes of the name; return -1 when the table is full. -/
def create_process (k : KState) (name : String) (entry_point : Nat) : KState × Int :=
  match findFreeSlot k.processes MAX_PROCESSES 0 with
  | some i =>
    let a := allocate_page k.memory_bitmap
    let p : Process :=
      { pid := k.next_pid, state := 1, stack_ptr := a.2 + PROCESS_STACK_SIZE,
        code_ptr := entry_point, name := name.take 31 }
    ({ k with memory_bitmap := a.1, next_pid := k.next_pid + 1,
              processes := upd k.processes i p }, k.next_pid)
  | none => (k, -1)

/-- init_processes from kernel.c: every slot zeroed. -/
def init_processes : Nat → Process :=
  fun _ => { pid := 0, state := 0, stack_ptr := 0, code_ptr := 0, name := "" }

/-- Kernel state right after init_memory and init_processes; the counter
next_pid carries its C static initializer 1. -/
def initKState : KState :=
  { memory_bitmap := init_memory, next_pid := 1,
    processes := init_processes, current_process := 0 }

/-! ## File system (filesystem.c) -/

def MAX_FILES : Nat := 100
def MAX_FILENAME : Nat := 32
def MAX_FILE_SIZE : Nat := 4096
def MAX_DIRECTORIES : Nat := 50
def FILE_TYPE_REGULAR : Nat := 1
def PERM_READ : Nat := 1
def PERM_EXECUTE : Nat := 4

structure FileEntry where
  name : String
  size : Nat
  type : Nat
  permissions : Nat
  data_start : Nat
  parent_dir : Nat
  next_file : Nat
deriving DecidableEq

structure DirectoryEntry where
  name : String
  parent_dir : Nat
  first_file : Nat
  next_dir : Nat
deriving DecidableEq

structure FSState where
  file_table : Nat → FileEntry
  directory_table : Nat → DirectoryEntry
  file_data : Nat → Nat
  next_file_id : Nat
  next_dir_id : Nat
  current_directory : Nat
  data_offset : Nat

def zeroFileEntry : FileEntry :=
  { name := "", size := 0, type := 0, permissions := 0,
    data_start := 0, parent_dir := 0, next_file := 0 }

def zeroDirEntry : DirectoryEntry :=
  { name := "", parent_dir := 0, first_file := 0, next_dir := 0 }

/-- Tail walk shared by create_file and create_directory: follow nxt from
cur until the successor is 0. -/
def walkLast (nxt : Nat → Nat) : Nat → Nat → Option Nat
  | 0, _ => none
  | fuel + 1, cur => if nxt cur = 0 then some cur else walkLast nxt fuel (nxt cur)

/-- Predecessor walk shared by delete_file and delete_directory: from
(prev, cur) follow nxt until cur is the target or 0; returns the final
(prev, cur). -/
def walkPrev (nxt : Nat → Nat) (target : Nat) : Nat → Nat → Nat → Option (Nat × Nat)
  | 0, _, _ => none
  | fuel + 1, prev, cur =>
    if cur = target ∨ cur = 0 then some (prev, cur)
    else walkPrev nxt target fuel cur (nxt cur)

/-- Name scan shared by find_file and find_directory: follow nxt from cur
until the name matches (return the id) or the chain ends (return the
sentinel 0xFFFFFFFF). -/
def findLoop (nm : Nat → String) (nxt : Nat → Nat) (target : String) : Nat → Nat → Option Nat
  | 0, _ => none
  | fuel + 1, cur =>
    if cur = 0 then some 4294967295
    else if nm cur = target then some cur
    else findLoop nm nxt target fuel (nxt cur)

/-- create_file from filesystem.c. -/
def create_file (s : FSState) (name : String) (ty perms : Nat) (fuel : Nat) :
    Option (FSState × Nat) :=
  if MAX_FILES ≤ s.next_file_id then some (s, 4294967295)
  else
    let file_id := s.next_file_id
    let s1 : FSState :=
      { s with
        file_table := upd s.file_table file_id
          { name := name.take 31, size := 0, type := ty, permissions := perms,
            data_start := s.data_offset, parent_dir := s.current_directory,
            next_file := 0 },
        next_file_id := file_id + 1 }
    let linked : Option FSState :=
      if (s1.directory_table s1.current_directory).first_file = 0 then
        some { s1 with
          directory_table := upd s1.directory_table s1.current_directory
            ({ s1.directory_table s1.current_directory with first_file := file_id }) }
      else
        (walkLast (fun i => (s1.file_table i).next_file) fuel
            ((s1.directory_table s1.current_directory).first_file)).map fun last =>
          { s1 with
            file_table := upd s1.file_table last
              ({ s1.file_table last with next_file := file_id }) }
    linked.map fun s2 => ({ s2 with data_offset := s2.data_offset + MAX_FILE_SIZE }, file_id)

/-- create_directory from filesystem.c. -/
def create_directory (s : FSState) (name : String) (fuel : Nat) :
    Option (FSState × Nat) :=
  if MAX_DIRECTORIES ≤ s.next_dir_id then some (s, 4294967295)
  else
    let dir_id := s.next_dir_id
    let s1 : FSState :=
      { s with
        directory_table := upd s.directory_table dir_id
          { name := name.take 31, parent_dir := s.current_directory,
            first_file := 0, next_dir := 0 },
        next_dir_id := dir_id + 1 }
    let parent := (s1.directory_table s1.current_directory).next_dir
    if parent = 0 then
      some ({ s1 with
        directory_table := upd s1.directory_table s1.current_directory
          ({ s1.directory_table s1.current_directory with next_dir := dir_id }) }, dir_id)
    else
      (walkLast (fun i => (s1.directory_table i).next_dir) fuel parent).map fun last =>
        ({ s1 with
          directory_table := upd s1.directory_table last
            ({ s1.directory_table last with next_dir := dir_id }) }, dir_id)

/-- delete_file from filesystem.c. -/
def delete_file (s : FSState) (file_id : Nat) (fuel : Nat) : Option (FSState × Int) :=
  if s.next_file_id ≤ file_id then some (s, -1)
  else
    let parent_dir := (s.file_table file_id).parent_dir
    (walkPrev (fun i => (s.file_table i).next_file) file_id fuel 0
        ((s.directory_table parent_dir).first_file)).map fun pc =>
      let s1 : FSState :=
        if pc.2 = file_id then
          if pc.1 = 0 then
            { s with
              directory_table := upd s.directory_table parent_dir
                ({ s.directory_table parent_dir with
                   first_file := (s.file_table file_id).next_file }) }
          else
            { s with
              file_table := upd s.file_table pc.1
                ({ s.file_table pc.1 with next_file := (s.file_table file_id).next_file }) }
        else s
      ({ s1 with file_table := upd s1.file_table file_id zeroFileEntry }, 0)

/-- delete_directory from filesystem.c: rejects an invalid id or the root
with -1, a non-empty directory with -2, otherwise unlinks and clears. -/
def delete_directory (s : FSState) (dir_id : Nat) (fuel : Nat) : Option (FSState × Int) :=
  if s.next_dir_id ≤ dir_id ∨ dir_id = 0 then some (s, -1)
  else if (s.directory_table dir_id).first_file ≠ 0 then some (s, -2)
  else
    let parent_dir := (s.directory_table dir_id).parent_dir
    (walkPrev (fun i => (s.directory_table i).next_dir) dir_id fuel 0
        ((s.directory_table parent_dir).next_dir)).map fun pc =>
      let s1 : FSState :=
        if pc.2 = dir_id then
          if pc.1 = 0 then
            { s with
              directory_table := upd s.directory_table parent_dir
                ({ s.directory_table parent_dir with
                   next_dir := (s.directory_table dir_id).next_dir }) }
          else
            { s with
              directory_table := upd s.directory_table pc.1
                ({ s.directory_table pc.1 with next_dir := (s.directory_table dir_id).next_dir }) }
        else s
      ({ s1 with directory_table := upd s1.directory_table dir_id zeroDirEntry }, 0)

/-- find_file from filesystem.c: linear name scan of the file list of
parent_dir. -/
def find_file (s : FSState) (name : String) (parent_dir : Nat) (fuel : Nat) : Option Nat :=
  findLoop (fun i => (s.file_table i).name) (fun i => (s.file_table i).next_file)
    name fuel ((s.directory_table parent_dir).first_file)

/-- find_directory from filesystem.c: linear name scan of the next_dir
chain hanging off parent_dir. -/
def find_directory (s : FSState) (name : String) (parent_dir : Nat) (fuel : Nat) : Option Nat :=
  findLoop (fun i => (s.directory_table i).name) (fun i => (s.directory_table i).next_dir)
    name fuel ((s.directory_table parent_dir).next_dir)

/-- read_file from filesystem.c: clamp to the recorded size with 32-bit
arithmetic, copy into the caller buffer, return the copied count as int. -/
def read_file (s : FSState) (file_id : Nat) (buffer : Nat → Nat) (offset size : Nat) :
    (Nat → Nat) × Int :=
  if s.next_file_id ≤ file_id then (buffer, -1)
  else
    let e := s.file_table file_id
    let sz := if e.size < uadd offset size then usub e.size offset else size
    if 0 < sz then
      ((fun a => if a < sz then s.file_data (e.data_start + offset + a) else buffer a),
        toInt32 sz)
    else (buffer, toInt32 sz)

/-- write_file from filesystem.c: clamp to MAX_FILE_SIZE with 32-bit
arithmetic, copy into the data blob, grow the recorded size forward only,
return the copied count as int. -/
def write_file (s : FSState) (file_id : Nat) (data : Nat → Nat) (offset size : Nat) :
    FSState × Int :=
  if s.next_file_id ≤ file_id then (s, -1)
  else
    let e := s.file_table file_id
    let sz := if MAX_FILE_SIZE < uadd offset size then usub MAX_FILE_SIZE offset else size
    if 0 < sz then
      let fd := fun a =>
        if e.data_start + offset ≤ a ∧ a < e.data_start + offset + sz then
          data (a - (e.data_start + offset))
        else s.file_data a
      let ft :=
        if e.size < uadd offset sz then
          upd s.file_table file_id { e with size := uadd offset sz }
        else s.file_table
      ({ s with file_data := fd, file_table := ft }, toInt32 sz)
    else (s, toInt32 sz)

/-- get_current_directory from filesystem.c. -/
def get_current_directory (s : FSState) : Nat := s.current_directory

/-- set_current_directory from filesystem.c. -/
def set_current_directory (s : FSState) (dir_id : Nat) : FSState :=
  if dir_id < s.next_dir_id then { s with current_directory := dir_id } else s

/-- Parent-chain loop of get_path_string: prepend "/" ++ name at each
step until the root (id 0) is reached. -/
def pathWalk (dt : Nat → DirectoryEntry) : Nat → Nat → String → Option String
  | 0, _, _ => none
  | fuel + 1, current, path =>
    if current = 0 then some path
    else pathWalk dt fuel (dt current).parent_dir ("/" ++ (dt current).name ++ path)

/-- get_path_string from filesystem.c: the parent-chain walk, with the
empty accumulated path turned into "/". -/
def get_path_string (s : FSState) (dir_id : Nat) (fuel : Nat) : Option String :=
  (pathWalk s.directory_table fuel dir_id "").map fun p => if p = "" then "/" else p

/-- Observation: the id chain of a file list starting at cur. -/
def fileChain (s : FSState) : Nat → Nat → Option (List Nat)
  | 0, _ => none
  | fuel + 1, cur =>
    if cur = 0 then some []
    else (fileChain s fuel ((s.file_table cur).next_file)).map fun l => cur :: l

/-- Observation: the file list of a directory. -/
def dirFileList (s : FSState) (dir_id : Nat) (fuel : Nat) : Option (List Nat) :=
  fileChain s fuel ((s.directory_table dir_id).first_file)

/-- root entry written by init_filesystem. -/
def rootDirectoryEntry : DirectoryEntry :=
  { name := "/", parent_dir := 0, first_file := 0, next_dir := 0 }

/-- State of init_filesystem just before it creates the default files:
tables cleared, root created, counters reset. -/
def fsBase : FSState :=
  { file_table := fun _ => zeroFileEntry,
    directory_table := upd (fun _ => zeroDirEntry) 0 rootDirectoryEntry,
    file_data := fun _ => 0,
    next_file_id := 0, next_dir_id := 1, current_directory := 0, data_offset := 0 }

/-- init_filesystem from filesystem.c: clear everything, create the root,
then create the three default files in the current (root) directory. -/
def init_filesystem : Option FSState :=
  (create_file fsBase "kernel.bin" FILE_TYPE_REGULAR (PERM_READ ||| PERM_EXECUTE)
      MAX_FILES).bind fun r1 =>
  (create_file r1.1 "shell.bin" FILE_TYPE_REGULAR (PERM_READ ||| PERM_EXECUTE)
      MAX_FILES).bind fun r2 =>
  (create_file r2.1 "init.bin" FILE_TYPE_REGULAR (PERM_READ ||| PERM_EXECUTE)
      MAX_FILES).map fun r3 => r3.1

/-- The file system state produced by init_filesystem. -/
def fs0 : FSState := init_filesystem.getD fsBase

/-- fs0 after delete_file(1). -/
def fs1 : FSState := ((delete_file fs0 1 MAX_FILES).getD (fsBase, 0)).1

/-- fs0 after create_directory("etc") under the root. -/
def fsEtc : FSState := ((create_directory fs0 "etc" MAX_DIRECTORIES).getD (fsBase, 0)).1

/-- fs0 after create_directory("a") under the root. -/
def fsA : FSState := ((create_directory fs0 "a" MAX_DIRECTORIES).getD (fsBase, 0)).1

/-- fsA after set_current_directory into directory "a" (id 1). -/
def fsAcd : FSState := set_current_directory fsA 1

/-- fsAcd after create_directory("b"), so "b" (id 2) has parent "a". -/
def fsAB : FSState := ((create_directory fsAcd "b" MAX_DIRECTORIES).getD (fsBase, 0)).1

/-- fsEtc after set_current_directory into directory "etc" (id 1). -/
def fsEtcCd : FSState := set_current_directory fsEtc 1

/-- fsEtcCd after create_file("x"), so directory 1 is non-empty. -/
def fsEtcX : FSState :=
  ((create_file fsEtcCd "x" FILE_TYPE_REGULAR PERM_READ MAX_FILES).getD (fsBase, 0)).1

/-! ## Syscall dispatcher (kernel.c) -/

structure World where
  kern : KState
  fs : FSState
  out : List Nat

/-- handle_system_call from kernel.c: the switch over call numbers.
SYS_WRITE (1) forwards its pointer argument to the text-output
collaborator, recorded here as a trace event; SYS_READ (2), SYS_FORK (4)
and SYS_EXEC (5) have empty bodies; SYS_EXIT (3) sets the state of the
current process to 3 (terminated); an unknown number is reported on the
trace. -/
def handle_system_call (w : World) (call_number arg1 _arg2 _arg3 : Nat) : World :=
  match call_number with
  | 1 => { w with out := w.out ++ [arg1] }
  | 2 => w
  | 3 =>
    { w with
      kern :=
      { w.kern with
        processes := upd w.kern.processes w.kern.current_process
          ({ w.kern.processes w.kern.current_process with state := 3 }) } }
  | 4 => w
  | 5 => w
  | n => { w with out := w.out ++ [n] }

/-- Sample world for concrete instantiations: kernel after creating one
process, file system after init_filesystem. -/
def worldA : World :=
  { kern := (create_process initKState "shell" 8192).1, fs := fs0, out := [] }

/-- Directory-table invariant maintained by the file system: the root is
self-parented, every other slot has a strictly smaller parent id, and the
current directory is below next_dir_id. -/
def FSInv (s : FSState) : Prop :=
  (s.directory_table 0).parent_dir = 0 ∧
  (∀ d, d ≠ 0 → (s.directory_table d).parent_dir < d) ∧
  s.current_directory < s.next_dir_id

/-! ## Helper lemmas -/

theorem upd_same {α : Type} (f : Nat → α) (i : Nat) (v : α) : upd f i v i = v := by
  simp [upd]

theorem upd_other {α : Type} (f : Nat → α) (i j : Nat) (v : α) (h : j ≠ i) :
    upd f i v j = f j := by
  simp [upd, h]

/-! ## Claim C1 -/

/-- C1 (code bug): after init_filesystem the root file list holds only
shell.bin (id 1) and init.bin (id 2); kernel.bin (id 0) was created but
never linked, because its id 0 collides with the end-of-list sentinel, so
find_file("kernel.bin", 0) already reports not-found.  The remaining
parts of the claimed scenario hold: find_file("shell.bin", 0) = 1, after
delete_file(1) it reports the sentinel 0xFFFFFFFF, and the root list
length drops from 2 to 1, exactly one. -/
theorem init_scenario_eval :
    init_filesystem = some fs0 ∧
    (fs0.file_table 0).name = "kernel.bin" ∧
    dirFileList fs0 0 10 = some [1, 2] ∧
    find_file fs0 "kernel.bin" 0 MAX_FILES = some 4294967295 ∧
    find_file fs0 "shell.bin" 0 MAX_FILES = some 1 ∧
    delete_file fs0 1 MAX_FILES = some (fs1, 0) ∧
    find_file fs1 "shell.bin" 0 MAX_FILES = some 4294967295 ∧
    dirFileList fs1 0 10 = some [2] :=
  ⟨rfl, by decide, by decide, by decide, by decide, rfl, by decide, by decide⟩

/-! ## Claim C6 -/

/-- C6: delete_directory on a valid non-root directory that still holds a
file returns the not-empty error -2 and leaves the whole state untouched,
and delete_directory on the root (id 0) returns -1 and leaves the whole
state untouched. -/
theorem delete_directory_guards (s : FSState) (dir_id fuel : Nat)
    (hv : dir_id < s.next_dir_id) (h0 : dir_id ≠ 0)
    (hne : (s.directory_table dir_id).first_file ≠ 0) :
    delete_directory s dir_id fuel = some (s, -2) ∧
    (∀ fuel2, delete_directory s 0 fuel2 = some (s, -1)) := by
  constructor
  · unfold delete_directory
    rw [if_neg, if_pos hne]
    simp only [not_or]
    exact ⟨by omega, h0⟩
  · intro fuel2
    unfold delete_directory
    rw [if_pos (Or.inr rfl)]

/-- Witness for C6 at a concrete state: directory 1 of fsEtcX holds file
id 3, so deleting it is refused with -2, and deleting the root with -1. -/
theorem delete_directory_guards_witness :
    delete_directory fsEtcX 1 10 = some (fsEtcX, -2) ∧
    delete_directory fsEtcX 0 10 = some (fsEtcX, -1) := by
  have h := delete_directory_guards fsEtcX 1 10 (by decide) (by decide) (by decide)
  exact ⟨h.1, h.2 10⟩

/-! ## Claim C7 -/

/-- C7: get_path_string of the root is "/", and for a directory "etc"
created by create_directory directly under the root (receiving id 1),
get_path_string returns "/etc". -/
theorem get_path_string_scenario :
    get_path_string fs0 0 5 = some "/" ∧
    create_directory fs0 "etc" MAX_DIRECTORIES = some (fsEtc, 1) ∧
    (fsEtc.directory_table 1).name = "etc" ∧
    (fsEtc.directory_table 1).parent_dir = 0 ∧
    get_path_string fsEtc 1 5 = some "/etc" :=
  ⟨by decide, rfl, by decide, by decide, by decide⟩

/-! ## Claim C8 -/

/-- C8: because next_dir doubles as first-child link and next-sibling
link, a directory created inside a child is reachable from the root scan:
after create_directory("a") under root, set_current_directory(1) and
create_directory("b"), find_directory("b", 0) returns id 2 although the
parent of 2 is directory 1, not the root 0. -/
theorem find_directory_crosses_parent :
    create_directory fs0 "a" MAX_DIRECTORIES = some (fsA, 1) ∧
    fsAcd.current_directory = 1 ∧
    create_directory fsAcd "b" MAX_DIRECTORIES = some (fsAB, 2) ∧
    find_directory fsAB "b" 0 MAX_DIRECTORIES = some 2 ∧
    (fsAB.directory_table 2).parent_dir = 1 :=
  ⟨rfl, by decide, rfl, by decide, by decide⟩

/-! ## Claim C10 -/

theorem upd_parent_eq (dt : Nat → DirectoryEntry) (x : Nat) (M : DirectoryEntry)
    (hM : M.parent_dir = (dt x).parent_dir) (d : Nat) :
    ((upd dt x M) d).parent_dir = (dt d).parent_dir := by
  by_cases h : d = x
  · subst h; simpa [upd] using hM
  · simp [upd, h]

theorem upd_ff_parent (dt : Nat → DirectoryEntry) (x v d : Nat) :
    ((upd dt x ({ dt x with first_file := v })) d).parent_dir = (dt d).parent_dir :=
  upd_parent_eq dt x ({ dt x with first_file := v }) rfl d

theorem upd_nd_parent (dt : Nat → DirectoryEntry) (x v d : Nat) :
    ((upd dt x ({ dt x with next_dir := v })) d).parent_dir = (dt d).parent_dir :=
  upd_parent_eq dt x ({ dt x with next_dir := v }) rfl d

theorem pathWalk_total (dt : Nat → DirectoryEntry)
    (hp : ∀ d, d ≠ 0 → (dt d).parent_dir < d) :
    ∀ fuel current path, current < fuel → ∃ p, pathWalk dt fuel current path = some p := by
  intro fuel
  induction fuel with
  | zero => intro c _ h; omega
  | succ f ih =>
    intro c path hc
    by_cases h0 : c = 0
    · subst h0; exact ⟨path, by simp [pathWalk]⟩
    · have hlt := hp c h0
      obtain ⟨q, hq⟩ := ih (dt c).parent_dir ("/" ++ (dt c).name ++ path) (by omega)
      exact ⟨q, by simp only [pathWalk, if_neg h0]; exact hq⟩

theorem FSInv_fsBase : FSInv fsBase := by
  refine ⟨rfl, ?_, by decide⟩
  intro d hd
  show ((upd (fun _ => zeroDirEntry) 0 rootDirectoryEntry) d).parent_dir < d
  rw [upd_other _ _ _ _ hd]
  show 0 < d
  omega

theorem create_file_FSInv (s : FSState) (name : String) (ty perms fuel : Nat)
    (q : FSState × Nat) (h : create_file s name ty perms fuel = some q)
    (hI : FSInv s) : FSInv q.1 := by
  obtain ⟨h0, hp, hc⟩ := hI
  simp only [create_file] at h
  split at h
  · simp only [Option.some.injEq] at h
    subst h
    exact ⟨h0, hp, hc⟩
  · split at h
    · simp only [Option.map_some', Option.some.injEq] at h
      subst h
      refine ⟨?_, ?_, hc⟩
      · rw [show ∀ d, ((upd s.directory_table s.current_directory
            ({ s.directory_table s.current_directory with first_file := s.next_file_id }))
            d).parent_dir = (s.directory_table d).parent_dir from upd_ff_parent _ _ _]
        exact h0
      · intro d hd
        rw [show ((upd s.directory_table s.current_directory
            ({ s.directory_table s.current_directory with first_file := s.next_file_id }))
            d).parent_dir = (s.directory_table d).parent_dir from upd_ff_parent _ _ _ d]
        exact hp d hd
    · rw [Option.map_eq_some'] at h
      obtain ⟨a, ha, hfa⟩ := h
      rw [Option.map_eq_some'] at ha
      obtain ⟨last, _, hga⟩ := ha
      subst hga
      subst hfa
      exact ⟨h0, hp, hc⟩

theorem create_directory_FSInv (s : FSState) (name : String) (fuel : Nat)
    (q : FSState × Nat) (h : create_directory s name fuel = some q)
    (hI : FSInv s) : FSInv q.1 := by
  obtain ⟨h0, hp, hc⟩ := hI
  have hdid0 : s.next_dir_id ≠ 0 := by omega
  simp only [create_directory] at h
  split at h
  · simp only [Option.some.injEq] at h
    subst h
    exact ⟨h0, hp, hc⟩
  · have key : ∀ x : Nat,
        ∀ M : DirectoryEntry,
        M.parent_dir = ((upd s.directory_table s.next_dir_id
          { name := name.take 31, parent_dir := s.current_directory,
            first_file := 0, next_dir := 0 }) x).parent_dir →
        FSInv { s with
          directory_table := upd (upd s.directory_table s.next_dir_id
            { name := name.take 31, parent_dir := s.current_directory,
              first_file := 0, next_dir := 0 }) x M,
          next_dir_id := s.next_dir_id + 1 } := by
      intro x M hM
      have hpar : ∀ d, ((upd (upd s.directory_table s.next_dir_id
          { name := name.take 31, parent_dir := s.current_directory,
            first_file := 0, next_dir := 0 }) x M) d).parent_dir =
          ((upd s.directory_table s.next_dir_id
          { name := name.take 31, parent_dir := s.current_directory,
            first_file := 0, next_dir := 0 }) d).parent_dir :=
        upd_parent_eq _ x M hM
      refine ⟨?_, ?_, ?_⟩
      · show ((upd _ x M) 0).parent_dir = 0
        rw [hpar 0, upd_other _ _ _ _ (Ne.symm hdid0)]
        exact h0
      · intro d hd
        show ((upd _ x M) d).parent_dir < d
        rw [hpar d]
        by_cases hdd : d = s.next_dir_id
        · subst hdd
          rw [upd_same]
          exact hc
        · rw [upd_other _ _ _ _ hdd]
          exact hp d hd
      · show s.current_directory < s.next_dir_id + 1
        omega
    split at h
    · simp only [Option.some.injEq] at h
      subst h
      exact key _ _ rfl
    · rw [Option.map_eq_some'] at h
      obtain ⟨last, _, hga⟩ := h
      subst hga
      exact key _ _ rfl

theorem delete_directory_FSInv (s : FSState) (dir_id fuel : Nat)
    (q : FSState × Int) (h : delete_directory s dir_id fuel = some q)
    (hI : FSInv s) : FSInv q.1 := by
  obtain ⟨h0, hp, hc⟩ := hI
  simp only [delete_directory] at h
  split at h
  · simp only [Option.some.injEq] at h
    subst h
    exact ⟨h0, hp, hc⟩
  next hguard =>
  simp only [not_or] at hguard
  have hd0 : dir_id ≠ 0 := hguard.2
  split at h
  · simp only [Option.some.injEq] at h
    subst h
    exact ⟨h0, hp, hc⟩
  · rw [Option.map_eq_some'] at h
    obtain ⟨pc, _, hfa⟩ := h
    subst hfa
    have hs1 : ∀ s1 : FSState,
        (∀ d, (s1.directory_table d).parent_dir = (s.directory_table d).parent_dir) →
        s1.next_dir_id = s.next_dir_id → s1.current_directory = s.current_directory →
        FSInv { s1 with directory_table := upd s1.directory_table dir_id zeroDirEntry } := by
      intro s1 hpar hnd hcd
      refine ⟨?_, ?_, ?_⟩
      · show ((upd s1.directory_table dir_id zeroDirEntry) 0).parent_dir = 0
        rw [upd_other _ _ _ _ (Ne.symm hd0), hpar]
        exact h0
      · intro d hd
        show ((upd s1.directory_table dir_id zeroDirEntry) d).parent_dir < d
        by_cases hdd : d = dir_id
        · subst hdd
          rw [upd_same]
          show 0 < d
          omega
        · rw [upd_other _ _ _ _ hdd, hpar]
          exact hp d hd
      · show s1.current_directory < s1.next_dir_id
        rw [hnd, hcd]
        exact hc
    split
    · split
      · exact hs1 _ (fun d => upd_nd_parent _ _ _ d) rfl rfl
      · exact hs1 _ (fun d => upd_nd_parent _ _ _ d) rfl rfl
    · exact hs1 s (fun _ => rfl) rfl rfl

/-- C10: get_path_string terminates on every directory id.  The
directory-table invariant FSInv (root self-parented, every other entry
with parent id strictly below its own id) holds after init_filesystem, is
preserved by create_directory and delete_directory, and under it the
parent-chain walk of get_path_string strictly decreases, so for any fuel
above the starting id the walk completes with some path. -/
theorem get_path_string_terminates :
    (∀ s, init_filesystem = some s → FSInv s) ∧
    (∀ s name fuel q, FSInv s → create_directory s name fuel = some q → FSInv q.1) ∧
    (∀ s dir_id fuel q, FSInv s → delete_directory s dir_id fuel = some q → FSInv q.1) ∧
    (∀ s dir_id fuel, FSInv s → dir_id < fuel →
      ∃ p, get_path_string s dir_id fuel = some p) := by
  refine ⟨?_, ?_, ?_, ?_⟩
  · intro s h
    unfold init_filesystem at h
    rw [Option.bind_eq_some] at h
    obtain ⟨r1, h1, h⟩ := h
    rw [Option.bind_eq_some] at h
    obtain ⟨r2, h2, h⟩ := h
    rw [Option.map_eq_some'] at h
    obtain ⟨r3, h3, hs⟩ := h
    subst hs
    exact create_file_FSInv _ _ _ _ _ _ h3
      (create_file_FSInv _ _ _ _ _ _ h2
        (create_file_FSInv _ _ _ _ _ _ h1 FSInv_fsBase))
  · intro s name fuel q hI h
    exact create_directory_FSInv _ _ _ _ h hI
  · intro s dir_id fuel q hI h
    exact delete_directory_FSInv _ _ _ _ h hI
  · intro s dir_id fuel hI hlt
    obtain ⟨p, hp⟩ := pathWalk_total s.directory_table hI.2.1 fuel dir_id "" hlt
    exact ⟨_, by rw [get_path_string, hp, Option.map_some']⟩

/-- Witness for C10: the invariant holds for the concrete init state and
the path walk of directory 0 completes with fuel 1. -/
theorem get_path_string_terminates_witness :
    FSInv fs0 ∧ ∃ p, get_path_string fs0 0 1 = some p :=
  ⟨get_path_string_terminates.1 fs0 rfl,
    get_path_string_terminates.2.2.2 fs0 0 1
      (get_path_string_terminates.1 fs0 rfl) (by decide)⟩

/-! ## Claim C3 -/

theorem findFreeSlot_some (procs : Nat → Process) :
    ∀ rem i i0, i ≤ i0 → i0 < i + rem → (procs i0).pid = 0 →
      (∀ t, i ≤ t → t < i0 → (procs t).pid ≠ 0) →
      findFreeSlot procs rem i = some i0 := by
  intro rem
  induction rem with
  | zero => intro i i0 h1 h2 _ _; omega
  | succ r ih =>
    intro i i0 h1 h2 hz hmin
    by_cases he : i = i0
    · subst he; simp [findFreeSlot, hz]
    · have hne : (procs i).pid ≠ 0 := hmin i le_rfl (by omega)
      simp only [findFreeSlot, if_neg hne]
      exact ih (i + 1) i0 (by omega) (by omega) hz (fun t ht1 ht2 => hmin t (by omega) ht2)

theorem findFreeSlot_none (procs : Nat → Process) :
    ∀ rem i, (∀ t, i ≤ t → t < i + rem → (procs t).pid ≠ 0) →
      findFreeSlot procs rem i = none := by
  intro rem
  induction rem with
  | zero => intro i _; rfl
  | succ r ih =>
    intro i hall
    have hne : (procs i).pid ≠ 0 := hall i le_rfl (by omega)
    simp only [findFreeSlot, if_neg hne]
    exact ih (i + 1) (fun t h1 h2 => hall t (by omega) (by omega))

/-- C3: create_process takes the first slot with pid 0, returns the pid
drawn from the counter (positive whenever the counter is at least its
initial value 1), bumps the counter by one, stores the name truncated to
31 bytes, sets the state directly to the numeric running value 1,
installs the stack from one allocate_page call (whose bitmap it keeps),
leaves every other slot alone; with no free slot it returns -1 and the
whole state unchanged.  The counter starts at 1 in the initial kernel
state. -/
theorem create_process_spec (k : KState) (name : String) (entry_point : Nat)
    (hpid : 1 ≤ k.next_pid) :
    (∀ i0, i0 < MAX_PROCESSES → (k.processes i0).pid = 0 →
      (∀ t, t < i0 → (k.processes t).pid ≠ 0) →
      (create_process k name entry_point).2 = k.next_pid ∧
      0 < (create_process k name entry_point).2 ∧
      (create_process k name entry_point).1.next_pid = k.next_pid + 1 ∧
      (create_process k name entry_point).1.processes i0 =
        { pid := k.next_pid, state := 1,
          stack_ptr := (allocate_page k.memory_bitmap).2 + PROCESS_STACK_SIZE,
          code_ptr := entry_point, name := name.take 31 } ∧
      (create_process k name entry_point).1.memory_bitmap =
        (allocate_page k.memory_bitmap).1 ∧
      (∀ t, t ≠ i0 → (create_process k name entry_point).1.processes t = k.processes t)) ∧
    ((∀ i, i < MAX_PROCESSES → (k.processes i).pid ≠ 0) →
      create_process k name entry_point = (k, -1)) ∧
    initKState.next_pid = 1 := by
  refine ⟨?_, ?_, rfl⟩
  · intro i0 hi0 hz hmin
    have hf : findFreeSlot k.processes MAX_PROCESSES 0 = some i0 :=
      findFreeSlot_some k.processes MAX_PROCESSES 0 i0 (Nat.zero_le _) (by omega) hz
        (fun t _ ht2 => hmin t ht2)
    refine ⟨?_, ?_, ?_, ?_, ?_, ?_⟩
    · simp only [create_process, hf]
    · simp only [create_process, hf]
      omega
    · simp only [create_process, hf]
    · simp only [create_process, hf]
      exact upd_same _ _ _
    · simp only [create_process, hf]
    · intro t ht
      simp only [create_process, hf]
      exact upd_other _ _ _ _ ht
  · intro hall
    have hf : findFreeSlot k.processes MAX_PROCESSES 0 = none :=
      findFreeSlot_none k.processes MAX_PROCESSES 0 (fun t _ ht2 => hall t (by omega))
    simp only [create_process, hf]

/-- Witness for C3 on the initial kernel state: the first process gets
pid 1, slot 0, state 1, stack page from the allocator, counter moves to 2. -/
theorem create_process_spec_witness :
    (create_process initKState "shell" 8192).2 = 1 ∧
    (create_process initKState "shell" 8192).1.processes 0 =
      { pid := 1, state := 1, stack_ptr := 1069056, code_ptr := 8192, name := "shell" } ∧
    (create_process initKState "shell" 8192).1.next_pid = 2 := by
  have h := (create_process_spec initKState "shell" 8192 (by decide)).1 0 (by decide)
    (by decide) (fun t ht => absurd ht (Nat.not_lt_zero t))
  exact ⟨h.1, h.2.2.2.1.trans (by decide), h.2.2.1.trans (by decide)⟩

/-! ## Claim C5 -/

/-- C5: handle_system_call with SYS_EXIT (3) sets the state of the
current process slot to 3 (terminated) and nothing else: pid (still
nonzero), stack pointer, code pointer and name of the slot, every other
slot, the memory bitmap (so the stack page bit stays set), the pid
counter, the current-process index, the file system and the output trace
are all unchanged. -/
theorem sys_exit_frame (w : World) (a1 a2 a3 p : Nat)
    (hpid : (w.kern.processes w.kern.current_process).pid ≠ 0)
    (hbit : pageBit w.kern.memory_bitmap p = true) :
    ((handle_system_call w 3 a1 a2 a3).kern.processes w.kern.current_process).state = 3 ∧
    ((handle_system_call w 3 a1 a2 a3).kern.processes w.kern.current_process).pid =
      (w.kern.processes w.kern.current_process).pid ∧
    ((handle_system_call w 3 a1 a2 a3).kern.processes w.kern.current_process).pid ≠ 0 ∧
    ((handle_system_call w 3 a1 a2 a3).kern.processes w.kern.current_process).stack_ptr =
      (w.kern.processes w.kern.current_process).stack_ptr ∧
    ((handle_system_call w 3 a1 a2 a3).kern.processes w.kern.current_process).code_ptr =
      (w.kern.processes w.kern.current_process).code_ptr ∧
    ((handle_system_call w 3 a1 a2 a3).kern.processes w.kern.current_process).name =
      (w.kern.processes w.kern.current_process).name ∧
    (∀ i, i ≠ w.kern.current_process →
      (handle_system_call w 3 a1 a2 a3).kern.processes i = w.kern.processes i) ∧
    (handle_system_call w 3 a1 a2 a3).kern.memory_bitmap = w.kern.memory_bitmap ∧
    pageBit (handle_system_call w 3 a1 a2 a3).kern.memory_bitmap p = true ∧
    (handle_system_call w 3 a1 a2 a3).kern.next_pid = w.kern.next_pid ∧
    (handle_system_call w 3 a1 a2 a3).kern.current_process = w.kern.current_process ∧
    (handle_system_call w 3 a1 a2 a3).fs = w.fs ∧
    (handle_system_call w 3 a1 a2 a3).out = w.out := by
  have hred : handle_system_call w 3 a1 a2 a3 =
      { w with
        kern :=
        { w.kern with
          processes := upd w.kern.processes w.kern.current_process
            ({ w.kern.processes w.kern.current_process with state := 3 }) } } := rfl
  rw [hred]
  dsimp only
  refine ⟨?_, ?_, ?_, ?_, ?_, ?_, ?_, rfl, hbit, rfl, rfl, rfl, rfl⟩
  · rw [upd_same]
  · rw [upd_same]
  · rw [upd_same]
    exact hpid
  · rw [upd_same]
  · rw [upd_same]
  · rw [upd_same]
  · intro i hi
    rw [upd_other _ _ _ _ hi]

/-- Witness for C5 at the concrete world after one create_process: slot 0
moves to state 3, keeps pid 1, bitmap and file system stay put. -/
theorem sys_exit_frame_witness :
    ((handle_system_call worldA 3 0 0 0).kern.processes 0).state = 3 ∧
    ((handle_system_call worldA 3 0 0 0).kern.processes 0).pid = 1 ∧
    (handle_system_call worldA 3 0 0 0).kern.memory_bitmap = worldA.kern.memory_bitmap ∧
    (handle_system_call worldA 3 0 0 0).fs = worldA.fs := by
  have h := sys_exit_frame worldA 0 0 0 0 (by decide) (by decide)
  exact ⟨h.1, h.2.1.trans (by decide), h.2.2.2.2.2.2.2.1,
    h.2.2.2.2.2.2.2.2.2.2.2.1⟩

/-! ## Claim C9 -/

theorem toInt32_ne_zero (n : Nat) (h1 : 0 < n) (h2 : n < 4294967296) : toInt32 n ≠ 0 := by
  unfold toInt32
  rw [Nat.mod_eq_of_lt h2]
  split
  · omega
  · omega

/-- C9: for a valid file id and an offset strictly beyond the recorded
size (with offset + size below 2^32), the clamp of read_file wraps: the
copy length becomes 2^32 - (offset - size_rec), a huge unsigned count,
and the int returned is that count converted to a signed 32-bit value,
which is never 0. -/
theorem read_file_offset_overrun (s : FSState) (file_id : Nat) (buffer : Nat → Nat)
    (offset size : Nat) (hid : file_id < s.next_file_id)
    (hoff : (s.file_table file_id).size < offset) (hnw : offset + size < 4294967296) :
    (read_file s file_id buffer offset size).2 =
      toInt32 (4294967296 - (offset - (s.file_table file_id).size)) ∧
    (read_file s file_id buffer offset size).2 ≠ 0 := by
  have hguard : ¬ s.next_file_id ≤ file_id := by omega
  have hua : uadd offset size = offset + size := by
    unfold uadd; exact Nat.mod_eq_of_lt hnw
  have hclamp : (s.file_table file_id).size < uadd offset size := by
    rw [hua]; omega
  have husub : usub (s.file_table file_id).size offset =
      4294967296 - (offset - (s.file_table file_id).size) := by
    unfold usub
    rw [Nat.mod_eq_of_lt (show (s.file_table file_id).size < 4294967296 by omega),
      Nat.mod_eq_of_lt (show offset < 4294967296 by omega),
      Nat.mod_eq_of_lt (show (s.file_table file_id).size + 4294967296 - offset < 4294967296
        by omega)]
    omega
  have hpos : 0 < usub (s.file_table file_id).size offset := by
    rw [husub]; omega
  constructor
  · simp only [read_file, if_neg hguard, if_pos hclamp, if_pos hpos]
    rw [husub]
  · simp only [read_file, if_neg hguard, if_pos hclamp, if_pos hpos]
    rw [husub]
    exact toInt32_ne_zero _ (by omega) (by omega)

/-- Witness for C9: reading file 0 of the init state (size 0) at offset
10 returns -10, not 0. -/
theorem read_file_offset_overrun_witness :
    (read_file fs0 0 (fun _ => 0) 10 0).2 = -10 ∧
    (read_file fs0 0 (fun _ => 0) 10 0).2 ≠ 0 := by
  have h := read_file_offset_overrun fs0 0 (fun _ => 0) 10 0
    (by decide) (by decide) (by decide)
  exact ⟨h.1.trans (by decide), h.2⟩

/-! ## Claim C4 -/

/-- C4: write_file(id, data, 0, N) then read_file(id, buf, 0, N) gives
back exactly the bytes of data when N is at most the fixed capacity
MAX_FILE_SIZE = 4096 (and returns count N); when N exceeds the capacity
the write silently keeps exactly the first 4096 bytes of data (the blob
is untouched outside the partition window), the recorded size becomes
4096, and the read returns those 4096 bytes with count 4096. -/
theorem write_read_roundtrip (s : FSState) (file_id : Nat) (data buffer : Nat → Nat)
    (N : Nat) (hid : file_id < s.next_file_id)
    (hsz : (s.file_table file_id).size ≤ MAX_FILE_SIZE) (hN : N < 4294967296) :
    (N ≤ MAX_FILE_SIZE →
      (∀ a, a < N →
        (read_file (write_file s file_id data 0 N).1 file_id buffer 0 N).1 a = data a) ∧
      (read_file (write_file s file_id data 0 N).1 file_id buffer 0 N).2 = (N : Int)) ∧
    (MAX_FILE_SIZE < N →
      (∀ a, a < MAX_FILE_SIZE →
        (write_file s file_id data 0 N).1.file_data ((s.file_table file_id).data_start + a)
          = data a) ∧
      (∀ a, a < (s.file_table file_id).data_start ∨
          (s.file_table file_id).data_start + MAX_FILE_SIZE ≤ a →
        (write_file s file_id data 0 N).1.file_data a = s.file_data a) ∧
      ((write_file s file_id data 0 N).1.file_table file_id).size = MAX_FILE_SIZE ∧
      (∀ a, a < MAX_FILE_SIZE →
        (read_file (write_file s file_id data 0 N).1 file_id buffer 0 N).1 a = data a) ∧
      (read_file (write_file s file_id data 0 N).1 file_id buffer 0 N).2
        = (MAX_FILE_SIZE : Int)) := by
  have h4096 : MAX_FILE_SIZE = 4096 := rfl
  have hguard : ¬ s.next_file_id ≤ file_id := by omega
  have huaN : uadd 0 N = N := by
    unfold uadd; rw [Nat.zero_add]; exact Nat.mod_eq_of_lt hN
  constructor
  · intro hle
    have hnoclamp : ¬ MAX_FILE_SIZE < N := by omega
    by_cases hN0 : N = 0
    · subst hN0
      refine ⟨fun a ha => absurd ha (Nat.not_lt_zero a), ?_⟩
      have hW : write_file s file_id data 0 0 = (s, toInt32 0) := by
        simp only [write_file, show uadd 0 0 = 0 from rfl, if_neg hguard,
          if_neg hnoclamp, if_neg (by decide : ¬ (0 : Nat) < 0)]
      rw [hW]
      simp only [read_file, show uadd 0 0 = 0 from rfl, if_neg hguard,
        if_neg (Nat.not_lt_zero _), if_neg (by decide : ¬ (0 : Nat) < 0)]
      decide
    · have hNpos : 0 < N := by omega
      by_cases hgrow : (s.file_table file_id).size < N
      · have hW : write_file s file_id data 0 N =
            ({ s with
              file_data := fun x =>
                if (s.file_table file_id).data_start + 0 ≤ x ∧
                    x < (s.file_table file_id).data_start + 0 + N then
                  data (x - ((s.file_table file_id).data_start + 0))
                else s.file_data x,
              file_table := upd s.file_table file_id
                ({ s.file_table file_id with size := N }) }, toInt32 N) := by
          simp only [write_file, huaN, if_neg hguard, if_neg hnoclamp, if_pos hNpos,
            if_pos hgrow]
        rw [hW]
        have hE : (upd s.file_table file_id
            ({ s.file_table file_id with size := N })) file_id =
            { s.file_table file_id with size := N } := upd_same _ _ _
        constructor
        · intro a ha
          simp only [read_file, huaN, if_neg hguard, hE]
          split
          · omega
          · dsimp only
            split
            · split
              · exact congrArg data (by omega)
              · omega
            · omega
        · simp only [read_file, huaN, if_neg hguard, hE]
          split
          · omega
          · dsimp only
            unfold toInt32
            rw [Nat.mod_eq_of_lt hN, if_pos (by omega)]
      · have hW : write_file s file_id data 0 N =
            ({ s with
              file_data := fun x =>
                if (s.file_table file_id).data_start + 0 ≤ x ∧
                    x < (s.file_table file_id).data_start + 0 + N then
                  data (x - ((s.file_table file_id).data_start + 0))
                else s.file_data x }, toInt32 N) := by
          simp only [write_file, huaN, if_neg hguard, if_neg hnoclamp, if_pos hNpos,
            if_neg hgrow]
        rw [hW]
        constructor
        · intro a ha
          simp only [read_file, huaN, if_neg hguard]
          split
          · omega
          · dsimp only
            split
            · split
              · exact congrArg data (by omega)
              · omega
            · omega
        · simp only [read_file, huaN, if_neg hguard]
          split
          · omega
          · dsimp only
            unfold toInt32
            rw [Nat.mod_eq_of_lt hN, if_pos (by omega)]
  · intro hgt
    have hclamp : MAX_FILE_SIZE < N := hgt
    have hus : usub MAX_FILE_SIZE 0 = 4096 := by decide
    have hus2 : usub 4096 0 = 4096 := by decide
    have hua4 : uadd 0 4096 = 4096 := by decide
    have hgt4 : (4096 : Nat) < N := by omega
    have ht32 : toInt32 4096 = (MAX_FILE_SIZE : Int) := by decide
    by_cases hgrow : (s.file_table file_id).size < 4096
    · have hW : write_file s file_id data 0 N =
          ({ s with
            file_data := fun x =>
              if (s.file_table file_id).data_start + 0 ≤ x ∧
                  x < (s.file_table file_id).data_start + 0 + 4096 then
                data (x - ((s.file_table file_id).data_start + 0))
              else s.file_data x,
            file_table := upd s.file_table file_id
              ({ s.file_table file_id with size := 4096 }) }, toInt32 4096) := by
        simp only [write_file, huaN, if_neg hguard, if_pos hclamp, hus, hua4,
          if_pos (by decide : (0 : Nat) < 4096), if_pos hgrow]
      rw [hW]
      have hE : (upd s.file_table file_id
          ({ s.file_table file_id with size := 4096 })) file_id =
          { s.file_table file_id with size := 4096 } := upd_same _ _ _
      refine ⟨?_, ?_, ?_, ?_, ?_⟩
      · intro a ha
        rw [h4096] at ha
        dsimp only
        split
        · exact congrArg data (by omega)
        · omega
      · intro a ha
        rw [h4096] at ha
        dsimp only
        split
        · omega
        · rfl
      · exact (congrArg FileEntry.size hE).trans h4096.symm
      · intro a ha
        rw [h4096] at ha
        simp only [read_file, huaN, if_neg hguard, hE, hus2]
        split
        · split
          · dsimp only
            split
            · split
              · exact congrArg data (by omega)
              · omega
            · omega
          · omega
        · omega
      · simp only [read_file, huaN, if_neg hguard, hE, hus2]
        split
        · split
          · exact ht32
          · omega
        · omega
    · have hsize : (s.file_table file_id).size = 4096 := by omega
      have hW : write_file s file_id data 0 N =
          ({ s with
            file_data := fun x =>
              if (s.file_table file_id).data_start + 0 ≤ x ∧
                  x < (s.file_table file_id).data_start + 0 + 4096 then
                data (x - ((s.file_table file_id).data_start + 0))
              else s.file_data x }, toInt32 4096) := by
        simp only [write_file, huaN, if_neg hguard, if_pos hclamp, hus, hua4,
          if_pos (by decide : (0 : Nat) < 4096), if_neg hgrow]
      rw [hW]
      refine ⟨?_, ?_, ?_, ?_, ?_⟩
      · intro a ha
        rw [h4096] at ha
        dsimp only
        split
        · exact congrArg data (by omega)
        · omega
      · intro a ha
        rw [h4096] at ha
        dsimp only
        split
        · omega
        · rfl
      · rw [hsize, h4096]
      · intro a ha
        rw [h4096] at ha
        simp only [read_file, huaN, if_neg hguard, hsize, hus2]
        split
        · split
          · dsimp only
            split
            · split
              · exact congrArg data (by omega)
              · omega
            · omega
          · omega
        · omega
      · simp only [read_file, huaN, if_neg hguard, hsize, hus2]
        split
        · split
          · exact ht32
          · omega
        · omega

/-- Witness for C4 at the init state, file 0: a 2-byte write reads back
both bytes, and an oversize 5000-byte write records size 4096. -/
theorem write_read_roundtrip_witness :
    (read_file (write_file fs0 0 (fun k => k + 65) 0 2).1 0 (fun _ => 0) 0 2).1 1 = 66 ∧
    (read_file (write_file fs0 0 (fun k => k + 65) 0 2).1 0 (fun _ => 0) 0 2).2 = 2 ∧
    ((write_file fs0 0 (fun k => k + 65) 0 5000).1.file_table 0).size = 4096 := by
  have h2 := (write_read_roundtrip fs0 0 (fun k => k + 65) (fun _ => 0) 2
    (by decide) (by decide) (by decide)).1 (by decide)
  have h5000 := (write_read_roundtrip fs0 0 (fun k => k + 65) (fun _ => 0) 5000
    (by decide) (by decide) (by decide)).2 (by decide)
  exact ⟨(h2.1 1 (by decide)).trans (by decide), h2.2, h5000.2.2.1⟩

/-! ## Claim C2 -/

theorem testBit_all_ones (b : Nat) (hb : b < 32) : (4294967295 : Nat).testBit b = true := by
  have h : (4294967295 : Nat) = 2 ^ 32 - 1 := by norm_num
  rw [h, Nat.testBit_two_pow_sub_one]
  simpa using hb

theorem findClearBit_hit (w : Nat) :
    ∀ rem j j2, j ≤ j2 → j2 < j + rem → w.testBit j2 = false →
      (∀ t, j ≤ t → t < j2 → w.testBit t = true) →
      findClearBit w rem j = some j2 := by
  intro rem
  induction rem with
  | zero => intro j j2 h1 h2 _ _; omega
  | succ r ih =>
    intro j j2 h1 h2 hz hmin
    by_cases he : j = j2
    · subst he
      simp [findClearBit, hz]
    · have ht : w.testBit j = true := hmin j le_rfl (by omega)
      have step : findClearBit w (r + 1) j = findClearBit w r (j + 1) := by
        simp [findClearBit, ht]
      rw [step]
      exact ih (j + 1) j2 (by omega) (by omega) hz (fun t a b => hmin t (by omega) b)

theorem findClearBit_miss (w : Nat) :
    ∀ rem j, (∀ t, j ≤ t → t < j + rem → w.testBit t = true) →
      findClearBit w rem j = none := by
  intro rem
  induction rem with
  | zero => intro j _; rfl
  | succ r ih =>
    intro j hall
    have ht : w.testBit j = true := hall j le_rfl (by omega)
    have step : findClearBit w (r + 1) j = findClearBit w r (j + 1) := by
      simp [findClearBit, ht]
    rw [step]
    exact ih (j + 1) (fun t a b => hall t (by omega) (by omega))

theorem allocLoop_hit (bm : Nat → Nat) :
    ∀ rem i i2 j2, i ≤ i2 → i2 < i + rem →
      (∀ t, i ≤ t → t < i2 → ∀ b, b < 32 → (bm t).testBit b = true) →
      bm i2 ≠ 4294967295 → findClearBit (bm i2) 32 0 = some j2 →
      allocLoop bm rem i = some (i2, j2) := by
  intro rem
  induction rem with
  | zero => intro i i2 j2 h1 h2 _ _ _; omega
  | succ r ih =>
    intro i i2 j2 h1 h2 hpre hne hfind
    by_cases he : i = i2
    · subst he
      simp [allocLoop, hne, hfind]
    · have hstep : allocLoop bm (r + 1) i = allocLoop bm r (i + 1) := by
        by_cases hfull : bm i = 4294967295
        · simp [allocLoop, hfull]
        · have hnone : findClearBit (bm i) 32 0 = none :=
            findClearBit_miss (bm i) 32 0
              (fun t _ ht2 => hpre i le_rfl (by omega) t (by omega))
          simp [allocLoop, hfull, hnone]
      rw [hstep]
      exact ih (i + 1) i2 j2 (by omega) (by omega)
        (fun t a b => hpre t (by omega) b) hne hfind

theorem allocLoop_exhausted (bm : Nat → Nat) :
    ∀ rem i, (∀ t, i ≤ t → t < i + rem → bm t = 4294967295) →
      allocLoop bm rem i = none := by
  intro rem
  induction rem with
  | zero => intro i _; rfl
  | succ r ih =>
    intro i hall
    have hfull : bm i = 4294967295 := hall i le_rfl (by omega)
    have hstep : allocLoop bm (r + 1) i = allocLoop bm r (i + 1) := by
      simp [allocLoop, hfull]
    rw [hstep]
    exact ih (i + 1) (fun t a b => hall t (by omega) (by omega))

theorem allocLoop_first_fit (bm : Nat → Nat) (k0 : Nat) (hk : k0 < 1024)
    (hfree : pageBit bm k0 = false) (hmin : ∀ k, k < k0 → pageBit bm k = true) :
    allocLoop bm 32 0 = some (k0 / 32, k0 % 32) := by
  have hmod : k0 % 32 < 32 := by omega
  have hbit : (bm (k0 / 32)).testBit (k0 % 32) = false := hfree
  have hpre : ∀ t, 0 ≤ t → t < k0 / 32 → ∀ b, b < 32 → (bm t).testBit b = true := by
    intro t _ ht b hb
    have h := hmin (32 * t + b) (by omega)
    unfold pageBit at h
    rw [show (32 * t + b) / 32 = t by omega, show (32 * t + b) % 32 = b by omega] at h
    exact h
  have hne : bm (k0 / 32) ≠ 4294967295 := by
    intro hfull
    rw [hfull, testBit_all_ones (k0 % 32) hmod] at hbit
    exact Bool.noConfusion hbit
  have hfind : findClearBit (bm (k0 / 32)) 32 0 = some (k0 % 32) := by
    apply findClearBit_hit (bm (k0 / 32)) 32 0 (k0 % 32) (Nat.zero_le _) (by omega) hbit
    intro t _ ht
    have h := hmin (32 * (k0 / 32) + t) (by omega)
    unfold pageBit at h
    rw [show (32 * (k0 / 32) + t) / 32 = k0 / 32 by omega,
      show (32 * (k0 / 32) + t) % 32 = t by omega] at h
    exact h
  exact allocLoop_hit bm 32 0 (k0 / 32) (k0 % 32) (Nat.zero_le _) (by omega) hpre hne hfind

theorem allocate_page_eq (bm : Nat → Nat) (i j : Nat)
    (h : allocLoop bm 32 0 = some (i, j)) :
    allocate_page bm =
      (upd bm i (bm i ||| (1 <<< j)), MEMORY_START + (i * 32 + j) * PAGE_SIZE) := by
  simp only [allocate_page, h]

theorem allocate_page_none (bm : Nat → Nat)
    (h : allocLoop bm 32 0 = none) : allocate_page bm = (bm, 0) := by
  simp only [allocate_page, h]

/-- C2: allocate_page is a first-fit scan: whenever k0 is the
lowest-index free page of the 1024-page pool (its bit clear, all lower
bits set), the returned address is MEMORY_START + k0 * PAGE_SIZE, within
the pool, the bit of k0 becomes set and every other bit is unchanged;
when every page bit is set (with each bitmap word a 32-bit value) the
call returns 0 and leaves the bitmap alone; free_page of an in-pool
page-aligned address clears exactly that page bit, and if that page is
then the lowest-index free one, the next allocate_page returns it. -/
theorem allocate_page_spec (bm : Nat → Nat) (hw : ∀ i, i < 32 → bm i < 4294967296) :
    (∀ k0, k0 < MAX_PAGES → pageBit bm k0 = false →
      (∀ k, k < k0 → pageBit bm k = true) →
      (allocate_page bm).2 = MEMORY_START + k0 * PAGE_SIZE ∧
      MEMORY_START ≤ (allocate_page bm).2 ∧
      (allocate_page bm).2 < MEMORY_START + MAX_PAGES * PAGE_SIZE ∧
      pageBit (allocate_page bm).1 k0 = true ∧
      (∀ k, k ≠ k0 → pageBit (allocate_page bm).1 k = pageBit bm k)) ∧
    ((∀ k, k < MAX_PAGES → pageBit bm k = true) → allocate_page bm = (bm, 0)) ∧
    (∀ p, MEMORY_START ≤ p → p < MEMORY_START + MAX_PAGES * PAGE_SIZE →
      (p - MEMORY_START) % PAGE_SIZE = 0 →
      pageBit (free_page bm p) ((p - MEMORY_START) / PAGE_SIZE) = false ∧
      ((∀ k, k < (p - MEMORY_START) / PAGE_SIZE → pageBit (free_page bm p) k = true) →
        (allocate_page (free_page bm p)).2 = p)) := by
  have hMS : MEMORY_START = 1048576 := rfl
  have hPS : PAGE_SIZE = 4096 := rfl
  have hMP : MAX_PAGES = 1024 := rfl
  refine ⟨?_, ?_, ?_⟩
  · intro k0 hk0 hfree hmin
    have hk : k0 < 1024 := by omega
    have hloop := allocLoop_first_fit bm k0 hk hfree hmin
    have hred := allocate_page_eq bm (k0 / 32) (k0 % 32) hloop
    rw [hred]
    have hk032 : k0 / 32 * 32 + k0 % 32 = k0 := by omega
    have hshift : (1 : Nat) <<< (k0 % 32) = 2 ^ (k0 % 32) := by
      rw [Nat.shiftLeft_eq, one_mul]
    refine ⟨by rw [hk032], by omega,
      by rw [hk032]; simp only [MEMORY_START, PAGE_SIZE, MAX_PAGES]; omega, ?_, ?_⟩
    · show (upd bm (k0 / 32) _ (k0 / 32)).testBit (k0 % 32) = true
      rw [upd_same, hshift, Nat.testBit_lor, Nat.testBit_two_pow_self, Bool.or_true]
    · intro k hkne
      show (upd bm (k0 / 32) _ (k / 32)).testBit (k % 32) =
        (bm (k / 32)).testBit (k % 32)
      by_cases hkw : k / 32 = k0 / 32
      · rw [hkw, upd_same, hshift, Nat.testBit_lor]
        have hbne : k0 % 32 ≠ k % 32 := by omega
        rw [Nat.testBit_two_pow_of_ne hbne, Bool.or_false]
      · rw [upd_other _ _ _ _ hkw]
  · intro hall
    have hfull : ∀ t, 0 ≤ t → t < 0 + 32 → bm t = 4294967295 := by
      intro t _ ht
      apply Nat.eq_of_testBit_eq
      intro b
      by_cases hb : b < 32
      · have h := hall (32 * t + b) (by omega)
        unfold pageBit at h
        rw [show (32 * t + b) / 32 = t by omega, show (32 * t + b) % 32 = b by omega] at h
        rw [h, testBit_all_ones b hb]
      · have h1 : bm t < 2 ^ b := by
          calc bm t < 4294967296 := hw t (by omega)
          _ = 2 ^ 32 := by norm_num
          _ ≤ 2 ^ b := Nat.pow_le_pow_right (by omega) (by omega)
        have h2 : (4294967295 : Nat) < 2 ^ b := by
          calc (4294967295 : Nat) < 2 ^ 32 := by norm_num
          _ ≤ 2 ^ b := Nat.pow_le_pow_right (by omega) (by omega)
        rw [Nat.testBit_eq_false_of_lt h1, Nat.testBit_eq_false_of_lt h2]
    have hnone : allocLoop bm 32 0 = none := allocLoop_exhausted bm 32 0 hfull
    exact allocate_page_none bm hnone
  · intro p hlo hhi halign
    simp only [MEMORY_START, PAGE_SIZE, MAX_PAGES] at hlo hhi halign ⊢
    have hidx : (p % 4294967296 + 4294967296 - 1048576) % 4294967296 = p - 1048576 := by
      omega
    have hF : free_page bm p =
        upd bm ((p - 1048576) / 4096 / 32)
          (bm ((p - 1048576) / 4096 / 32) &&&
            (4294967295 ^^^ (1 <<< ((p - 1048576) / 4096 % 32)))) := by
      simp only [free_page, MEMORY_START, PAGE_SIZE, hidx]
    have hb32 : (p - 1048576) / 4096 % 32 < 32 := by omega
    have hshift : (1 : Nat) <<< ((p - 1048576) / 4096 % 32) =
        2 ^ ((p - 1048576) / 4096 % 32) := by
      rw [Nat.shiftLeft_eq, one_mul]
    have hcleared : pageBit (free_page bm p) ((p - 1048576) / 4096) = false := by
      rw [hF]
      show (upd bm _ _ ((p - 1048576) / 4096 / 32)).testBit
        ((p - 1048576) / 4096 % 32) = false
      rw [upd_same, hshift, Nat.testBit_land, Nat.testBit_xor,
        testBit_all_ones _ hb32, Nat.testBit_two_pow_self]
      simp
    refine ⟨hcleared, ?_⟩
    intro hleast
    have hik : (p - 1048576) / 4096 < 1024 := by omega
    have hloop := allocLoop_first_fit (free_page bm p) ((p - 1048576) / 4096)
      hik hcleared hleast
    have hred := allocate_page_eq (free_page bm p)
      ((p - 1048576) / 4096 / 32) ((p - 1048576) / 4096 % 32) hloop
    rw [hred]
    show 1048576 + ((p - 1048576) / 4096 / 32 * 32 +
      (p - 1048576) / 4096 % 32) * 4096 = p
    omega

/-- Witness for C2: on the bitmap produced by init_memory (first four
pages reserved) the first fit returns page 4 at address 0x104000; on a
bitmap with every bit set the call returns 0; freeing page 4 out of the
full bitmap makes the next allocate_page return its address again. -/
theorem allocate_page_spec_witness :
    (allocate_page init_memory).2 = 1064960 ∧
    allocate_page (fun _ => 4294967295) = ((fun _ => 4294967295), 0) ∧
    (allocate_page (free_page (fun _ => 4294967295) 1064960)).2 = 1064960 := by
  have h1 := (allocate_page_spec init_memory (by decide)).1 4 (by decide) (by decide)
    (by decide)
  have h2 := (allocate_page_spec (fun _ => 4294967295)
    (fun i _ => by show (4294967295 : Nat) < 4294967296; decide)).2.1
    (fun k _ => testBit_all_ones (k % 32) (by omega))
  have h3 := ((allocate_page_spec (fun _ => 4294967295)
    (fun i _ => by show (4294967295 : Nat) < 4294967296; decide)).2.2
    1064960 (by decide) (by decide) (by decide)).2
  refine ⟨h1.1.trans (by decide), h2, ?_⟩
  refine (h3 ?_).trans (by decide)
  intro k hk
  have hidx : (1064960 - MEMORY_START) / PAGE_SIZE = 4 := by decide
  rw [hidx] at hk
  interval_cases k <;> decide

end SimpleOS
